import Mathlib

/-!
Verification of the table-query / presets hooks of the page-builder package.

The TypeScript sources are shallowly embedded:
* JavaScript values are modelled by the inductive type `Js` (numbers as `Int`;
  floating point and `NaN` do not occur in the verified code paths).
* Optional chaining `x?.f` is `Js.opt`, `??` is `jsNullish`, `||` is `jsOr`,
  truthiness is `jsTruthy`.
* React `useState` state of the `useTableQuery` hook is collected in the
  structure `QueryState`; each setter/callback becomes a state-transition
  function.
* The SWR cache is a list of (key, data) pairs; `mutate(filter, undefined)`
  sets the data of every matching entry to `undefined`.
-/

namespace PageBuilder

/-- Model of a JavaScript value as used by the hooks (no functions, no NaN;
numbers restricted to integers, which covers every value the hooks produce). -/
inductive Js where
  | undefined : Js
  | null : Js
  | bool : Bool → Js
  | num : Int → Js
  | str : String → Js
  | arr : List Js → Js
  | obj : List (String × Js) → Js

/-- JavaScript strict equality `===` on the values the hooks compare (primitives;
distinct object/array literals are never `===`, reference identity is not
modelled). -/
def jsStrictEq (a b : Js) : Bool :=
  match a, b with
  | .undefined, .undefined => true
  | .null, .null => true
  | .bool x, .bool y => x == y
  | .num x, .num y => x == y
  | .str x, .str y => x == y
  | _, _ => false

/-- Property access with optional chaining: `v?.k`.  Objects look the key up
(absent key gives `undefined`); every non-object gives `undefined`. -/
def Js.opt (v : Js) (k : String) : Js :=
  match v with
  | .obj fields =>
      match fields.find? (fun kv => kv.1 = k) with
      | some kv => kv.2
      | none => .undefined
  | _ => .undefined

/-- JavaScript falsiness: `undefined`, `null`, `false`, `0` and `""` are falsy. -/
def jsFalsy : Js → Bool
  | .undefined => true
  | .null => true
  | .bool b => !b
  | .num n => n == 0
  | .str s => s == ""
  | .arr _ => false
  | .obj _ => false

def jsTruthy (v : Js) : Bool := !jsFalsy v

/-- JavaScript `a ?? b` (nullish coalescing). -/
def jsNullish (a b : Js) : Js :=
  match a with
  | .undefined => b
  | .null => b
  | _ => a

/-- JavaScript `a || b`. -/
def jsOr (a b : Js) : Js := if jsFalsy a then b else a

/-- `extractDataFromResponse` (useTableQuery.ts): tries the known response
envelope shapes in order with `??`, defaulting to the empty array. -/
def extractDataFromResponse (data : Js) : Js :=
  jsNullish ((data.opt "response").opt "mainResult") <|
  jsNullish (data.opt "response") <|
  jsNullish (data.opt "mainResult") <|
  jsNullish (data.opt "MainResult") <|
  jsNullish ((data.opt "body").opt "mainResult") <|
  jsNullish ((data.opt "body").opt "data") <|
  jsNullish (data.opt "body") <|
  jsNullish (data.opt "data") <|
  jsNullish (data.opt "Data") <|
  Js.arr []

example : extractDataFromResponse (Js.obj [("data", Js.arr [Js.num 1])]) = Js.arr [Js.num 1] := by
  rfl

example : extractDataFromResponse Js.null = Js.arr [] := rfl

mutual

/-- Model of `JSON.stringify` on the values the hooks serialise (string escaping
beyond quoting is elided; no claim depends on the serialised text). -/
def jsStringify : Js → String
  | .undefined => "null"
  | .null => "null"
  | .bool b => if b then "true" else "false"
  | .num n => toString n
  | .str s => "\"" ++ s ++ "\""
  | .arr l => "[" ++ stringifyArr l ++ "]"
  | .obj fields => "\x7b" ++ stringifyObj fields ++ "\x7d"

def stringifyArr : List Js → String
  | [] => ""
  | [x] => jsStringify x
  | x :: y :: rest => jsStringify x ++ "," ++ stringifyArr (y :: rest)

def stringifyObj : List (String × Js) → String
  | [] => ""
  | (k, v) :: rest =>
      match v with
      | .undefined => stringifyObj rest
      | _ =>
          let s := "\"" ++ k ++ "\":" ++ jsStringify v
          let r := stringifyObj rest
          if r = "" then s else s ++ "," ++ r

end

example : jsStringify (Js.obj [("a", Js.num 1), ("b", Js.undefined)]) = "\x7b\"a\":1\x7d" := rfl

/-- `pruneNullOrUndefinedFields` (utils/functions.ts) on the field list of an
object: plain objects are pruned recursively and kept only when the result is
non-empty; `null`, `undefined` and `""` values are dropped; everything else
(arrays included — lodash `isPlainObject` rejects arrays) is kept. -/
def pruneFields : List (String × Js) → List (String × Js)
  | [] => []
  | (k, v) :: rest =>
      match v with
      | .obj fields =>
          if (pruneFields fields).isEmpty then pruneFields rest
          else (k, Js.obj (pruneFields fields)) :: pruneFields rest
      | .null => pruneFields rest
      | .undefined => pruneFields rest
      | .str s => if s = "" then pruneFields rest else (k, Js.str s) :: pruneFields rest
      | v' => (k, v') :: pruneFields rest

/-- The "pruned" predicate of the spec, over object nesting: no `null`,
`undefined` or `""` value at any depth, and every nested object is itself
pruned and non-empty. -/
def prunedFields : List (String × Js) → Bool
  | [] => true
  | (_, v) :: rest =>
      (match v with
       | .null => false
       | .undefined => false
       | .str s => !(s == "")
       | .obj fields => !fields.isEmpty && prunedFields fields
       | _ => true) && prunedFields rest

example :
    pruneFields [("a", Js.null), ("b", Js.str ""), ("c", Js.obj [("d", Js.undefined)]),
      ("e", Js.num 0), ("f", Js.obj [("g", Js.str "x"), ("h", Js.null)])] =
    [("e", Js.num 0), ("f", Js.obj [("g", Js.str "x")])] := by
  simp [pruneFields]

theorem prunedFields_pruneFields (l : List (String × Js)) :
    prunedFields (pruneFields l) = true := by
  induction l using pruneFields.induct <;> simp_all [pruneFields, prunedFields]

/-- A table column as handled by `useTableQuery`: the antd properties the hook
reads/writes, plus the untouched remaining props carried through spreads. -/
structure Column where
  dataIndex : String
  hidden : Bool
  order : Option Nat
  props : List (String × Js)

/-- `getTimeWindowKey` (useTableQuery.ts).  `Date.now()` is passed in as
`nowMs`; `intervalMinutes = 5` is the JS default applied when the argument is
`undefined`. -/
def getTimeWindowKey (nowMs : Nat) (intervalMinutes : Option Nat) (pfx : String) : String :=
  let intervalMs := intervalMinutes.getD 5 * 60 * 1000
  let intervals := nowMs / intervalMs
  pfx ++ toString intervals

/-- Adds order information to the initial columns: a column keeps its own
`order` when present, otherwise receives its index; empty input stays empty. -/
def columnsWithOrder (initialColumns : List Column) : List Column :=
  if initialColumns.length > 0 then
    initialColumns.enum.map fun ic => { ic.2 with order := some (ic.2.order.getD ic.1) }
  else []

/-- The `useState` pieces of `useTableQuery` collected in one record. -/
structure QueryState where
  isCacheKeyUndefined : Bool
  columns : List Column
  current : Nat
  pageSize : Nat
  submittedFilters : List (String × Js)
  sorter : Js
  staleTime : String
  isRetrying : Bool

/-- The initial hook state (the `useState` initialisers). -/
def initState (initialColumns : List Column) (initialFilters : List (String × Js))
    (initialPage initialPageSize : Nat) (initialSorter : Js)
    (defaultStale : Option Nat) (nowMs : Nat) : QueryState :=
  { isCacheKeyUndefined := false
    columns := columnsWithOrder initialColumns
    current := initialPage
    pageSize := initialPageSize
    submittedFilters := pruneFields initialFilters
    sorter := initialSorter
    staleTime := getTimeWindowKey nowMs defaultStale "filters_"
    isRetrying := false }

/-- `submitFilters`: prunes the new filters, resets the page to 1, recomputes
the stale-time window, and clears the cache-suppression and retry flags. -/
def submitFilters (defaultStale : Option Nat) (newFilters : List (String × Js))
    (nowMs : Nat) (st : QueryState) : QueryState :=
  { st with
      submittedFilters := pruneFields newFilters
      current := 1
      staleTime := getTimeWindowKey nowMs defaultStale "filters_"
      isCacheKeyUndefined := false
      isRetrying := false }

/-- The `sorter` argument passed to `fetchData`:
`orderColumn = sorter.columnKey || sorter.field`,
`orderDir = sorter.order ? (sorter.order === "ascend" ? 1 : -1) : -1`. -/
structure SorterParam where
  orderColumn : Js
  orderDir : Int

def sorterParamOf (sorter : Js) : SorterParam :=
  { orderColumn := jsOr (sorter.opt "columnKey") (sorter.opt "field")
    orderDir :=
      if jsTruthy (sorter.opt "order") then
        if jsStrictEq (sorter.opt "order") (Js.str "ascend") then 1 else -1
      else -1 }

structure PaginationParam where
  page : Nat
  pageSize : Nat

/-- The `FetchDataParams` interface of useTableQuery.ts. -/
structure FetchDataParams where
  filters : List (String × Js)
  pagination : PaginationParam
  sorter : SorterParam

/-- Parameters of the fetch issued by `exportFn`: always page 1, pageSize 0,
with the currently submitted filters and current sorter. -/
def exportParams (st : QueryState) : FetchDataParams :=
  { filters := st.submittedFilters
    pagination := { page := 1, pageSize := 0 }
    sorter := sorterParamOf st.sorter }

/-- `exportFn`: fetches with `exportParams` and normalises the raw result the
same way `dataSource` does. -/
def exportFn (fetchData : FetchDataParams → Js) (st : QueryState) : Js :=
  extractDataFromResponse (fetchData (exportParams st))

/-- Parameters of the regular SWR fetcher (current page / pageSize). -/
def fetchParams (st : QueryState) : FetchDataParams :=
  { filters := st.submittedFilters
    pagination := { page := st.current, pageSize := st.pageSize }
    sorter := sorterParamOf st.sorter }

/-- The `dataSource` derivation: `extractDataFromResponse(data ?? initialData)`. -/
def dataSource (data initialData : Js) : Js :=
  extractDataFromResponse (jsNullish data initialData)

/-- The SWR key array
`[cacheKey, current, pageSize, JSON.stringify(submittedFilters), JSON.stringify(sorter), staleTime]`. -/
def swrKeyTuple (cacheKey : Js) (st : QueryState) : List Js :=
  [cacheKey, Js.num (st.current : Int), Js.num (st.pageSize : Int),
   Js.str (jsStringify (Js.obj st.submittedFilters)),
   Js.str (jsStringify st.sorter),
   Js.str st.staleTime]

/-- The key handed to `useSWR`: `undefined` (no fetching) while
`isCacheKeyUndefined` is set, the key array otherwise. -/
def swrKey (cacheKey : Js) (st : QueryState) : Option (List Js) :=
  if st.isCacheKeyUndefined then none else some (swrKeyTuple cacheKey st)

/-- `updateColumnVisibility`: updates `hidden` (and `order` when supplied) of
the column whose `dataIndex` matches; every other piece of state is untouched. -/
def updateColumnVisibility (key : String) (hidden : Bool) (order? : Option Nat)
    (st : QueryState) : QueryState :=
  { st with
      columns := st.columns.map fun col =>
        if col.dataIndex = key then
          match order? with
          | some o => { col with hidden := hidden, order := some o }
          | none => { col with hidden := hidden }
        else col }

/-- `resetColumnVisibility`: restores the initial column snapshot. -/
def resetColumnVisibility (initialColumns : List Column) (st : QueryState) : QueryState :=
  { st with columns := columnsWithOrder initialColumns }

/-- An SWR cache key: either a plain string or a key array. -/
inductive SwrCacheKey where
  | str : String → SwrCacheKey
  | arr : List Js → SwrCacheKey

/-- Model of `String.prototype.startsWith`. -/
def jsStartsWith (s pat : String) : Bool := pat.data.isPrefixOf s.data

def strIncludesAux (pat : List Char) : List Char → Bool
  | [] => pat.isEmpty
  | c :: rest => pat.isPrefixOf (c :: rest) || strIncludesAux pat rest

/-- Model of `String.prototype.includes` (substring containment). -/
def strIncludes (s pat : String) : Bool := strIncludesAux pat.data s.data

/-- The key filter passed to the global `mutate` in `clearAllRelatedCache`:
skips when `cacheKey` is falsy, uses `startsWith` for string keys and
`includes` on the first element for array keys.  (The TS type of `cacheKey`
is `string | undefined | null`, so a truthy non-string cannot occur.) -/
def cacheKeyFilter (cacheKey : Js) (k : SwrCacheKey) : Bool :=
  if jsFalsy cacheKey then false
  else
    match k, cacheKey with
    | .str s, .str ck => jsStartsWith s ck
    | .arr (Js.str h :: _), .str ck => strIncludes h ck
    | _, _ => false

/-- The SWR cache: keyed entries with their cached data. -/
abbrev SwrCache := List (SwrCacheKey × Js)

/-- `clearAllRelatedCache`: `mutate(filter, undefined, {revalidate: false})` —
the data of every entry accepted by `cacheKeyFilter` becomes `undefined`. -/
def clearAllRelatedCache (cacheKey : Js) (cache : SwrCache) : SwrCache :=
  cache.map fun e => if cacheKeyFilter cacheKey e.1 then (e.1, Js.undefined) else e

/-- The `onErrorRetry` SWR callback: sets the retrying flag; with
`retryCount >= 2` it clears the related cache, suppresses the key and stops;
otherwise it schedules a revalidation 3000 ms later.  The result is the new
hook state, the new cache, and the scheduled delay (`none` = no retry). -/
def onErrorRetry (cacheKey : Js) (st : QueryState) (cache : SwrCache)
    (retryCount : Nat) : QueryState × SwrCache × Option Nat :=
  let st1 := { st with isRetrying := true }
  if retryCount ≥ 2 then
    ({ st1 with isCacheKeyUndefined := true, isRetrying := false },
      clearAllRelatedCache cacheKey cache, none)
  else
    (st1, cache, some 3000)

/-- "Key is prefixed by the cache key" as the spec states it: string keys via
`startsWith`, array keys via `startsWith` on their first (string) element. -/
def keyPrefixedBy (ck : String) (k : SwrCacheKey) : Bool :=
  match k with
  | .str s => jsStartsWith s ck
  | .arr (Js.str h :: _) => jsStartsWith h ck
  | .arr _ => false

theorem strIncludes_of_isPrefixOf (s pat : String)
    (h : pat.data.isPrefixOf s.data = true) : strIncludes s pat = true := by
  unfold strIncludes
  cases hs : s.data with
  | nil =>
      rw [hs] at h
      cases hp : pat.data with
      | nil => simp [strIncludesAux, List.isEmpty, hp]
      | cons c cs => rw [hp] at h; simp [List.isPrefixOf] at h
  | cons c cs =>
      rw [hs] at h
      simp [strIncludesAux, h]

/-- Every key prefixed by a (truthy) cache key is accepted by the clearing
filter, hence cleared. -/
theorem cacheKeyFilter_of_prefixed (ck : String) (hck : ck ≠ "") (k : SwrCacheKey)
    (h : keyPrefixedBy ck k = true) : cacheKeyFilter (Js.str ck) k = true := by
  have hfalsy : jsFalsy (Js.str ck) = false := by
    simp [jsFalsy, hck]
  cases k with
  | str s =>
      simp only [cacheKeyFilter, hfalsy, Bool.false_eq_true, if_false]
      exact h
  | arr l =>
      cases l with
      | nil => simp [keyPrefixedBy] at h
      | cons hd tl =>
          cases hd <;> simp [keyPrefixedBy] at h
          case str hs =>
            simp only [cacheKeyFilter, hfalsy, Bool.false_eq_true, if_false]
            exact strIncludes_of_isPrefixOf _ _ h

/-! ## The presets hook (usePresets.ts) -/

/-- A stored preset entry as read by the hook: an id, a name, and the opaque
serialised filter snapshot. -/
structure PresetEntry where
  presetId : Js
  name : String
  data : String

/-- Model of JavaScript `String.prototype.trim`. -/
def jsTrim (s : String) : String :=
  String.mk (((s.data.dropWhile Char.isWhitespace).reverse.dropWhile
    Char.isWhitespace).reverse)

def parseDigitsAux : List Char → Nat → Option Nat
  | [], acc => some acc
  | c :: rest, acc =>
      if c.isDigit then parseDigitsAux rest (acc * 10 + (c.toNat - 48)) else none

/-- Model of JavaScript numeric conversion of a string (integer literals only;
whitespace-only gives 0, anything non-numeric gives `NaN` = `none`). -/
def strToNumber (s : String) : Option Int :=
  match (jsTrim s).data with
  | [] => some 0
  | '-' :: rest => if rest.isEmpty then none else (parseDigitsAux rest 0).map fun n => -(n : Int)
  | '+' :: rest => if rest.isEmpty then none else (parseDigitsAux rest 0).map fun n => (n : Int)
  | l => (parseDigitsAux l 0).map fun n => (n : Int)

/-- Model of JavaScript `ToNumber` on the values compared by the hooks
(`none` = `NaN`; fractional numbers do not occur). -/
def jsToNumber : Js → Option Int
  | .undefined => none
  | .null => some 0
  | .bool b => some (if b then 1 else 0)
  | .num n => some n
  | .str s => strToNumber s
  | .arr _ => none
  | .obj _ => none

/-- The JavaScript comparison `v > 0` (false for `NaN`). -/
def jsGtZero (v : Js) : Bool :=
  match jsToNumber v with
  | some n => decide (0 < n)
  | none => false

/-- The numeric `lastUpdated` of a parsed preset payload, as used by the sort
comparator `(a, b) => b.parsedData.lastUpdated - a.parsedData.lastUpdated`. -/
def luOf (d : Js) : Int := (jsToNumber (d.opt "lastUpdated")).getD 0

/-- Insertion into a descending-sorted list (model of `Array.prototype.sort`
with a numeric comparator; only the result's order matters). -/
def insertDesc {α : Type} (lu : α → Int) (x : α) : List α → List α
  | [] => [x]
  | y :: rest => if lu y ≤ lu x then x :: y :: rest else y :: insertDesc lu x rest

/-- Sorting a list descending by the measure `lu`. -/
def sortDesc {α : Type} (lu : α → Int) : List α → List α
  | [] => []
  | x :: rest => insertDesc lu x (sortDesc lu rest)

theorem length_insertDesc {α : Type} (lu : α → Int) (x : α) (l : List α) :
    (insertDesc lu x l).length = l.length + 1 := by
  induction l with
  | nil => rfl
  | cons y rest ih => simp only [insertDesc]; split <;> simp [ih]

theorem length_sortDesc {α : Type} (lu : α → Int) (l : List α) :
    (sortDesc lu l).length = l.length := by
  induction l with
  | nil => rfl
  | cons x rest ih => simp [sortDesc, length_insertDesc, ih]

theorem mem_insertDesc {α : Type} (lu : α → Int) (x a : α) (l : List α) :
    a ∈ insertDesc lu x l ↔ a = x ∨ a ∈ l := by
  induction l with
  | nil => simp [insertDesc]
  | cons y rest ih =>
      simp only [insertDesc]
      split
      · simp [ih]
      · simp [ih]
        tauto

theorem mem_sortDesc {α : Type} (lu : α → Int) (a : α) (l : List α) :
    a ∈ sortDesc lu l ↔ a ∈ l := by
  induction l with
  | nil => simp [sortDesc]
  | cons x rest ih => simp [sortDesc, mem_insertDesc, ih]

/-- The first element of a descending sort is a maximum of the measure. -/
theorem sortDesc_head_max {α : Type} (lu : α → Int) :
    ∀ (l : List α) (h : α), (sortDesc lu l).head? = some h → ∀ x ∈ l, lu x ≤ lu h := by
  intro l
  induction l with
  | nil => intro h hh; simp [sortDesc] at hh
  | cons a rest ih =>
      intro h hh x hx
      simp only [sortDesc] at hh
      cases hr : sortDesc lu rest with
      | nil =>
          rw [hr] at hh
          simp [insertDesc] at hh
          have hrest : rest = [] := by
            have hl := length_sortDesc lu rest
            rw [hr] at hl
            exact List.length_eq_zero.mp hl.symm
          subst hrest
          simp at hx
          subst hx; subst hh; exact le_refl _
      | cons y t =>
          rw [hr] at hh
          simp only [insertDesc] at hh
          by_cases hc : lu y ≤ lu a
          · rw [if_pos hc] at hh
            simp at hh
            subst hh
            rcases List.mem_cons.mp hx with rfl | hx'
            · exact le_refl _
            · exact le_trans (ih y (by rw [hr]; rfl) x hx') hc
          · rw [if_neg hc] at hh
            simp at hh
            subst hh
            rcases List.mem_cons.mp hx with rfl | hx'
            · exact le_of_lt (lt_of_not_le hc)
            · exact ih y (by rw [hr]; rfl) x hx'

/-- `defaultPreset` (usePresets.ts): `null` without a preset kind or with no
entries; otherwise parse each entry (unparsable entries are dropped), keep the
entries whose `parsedData.lastUpdated > 0`, sort them descending by
`lastUpdated` and return the first, with its `data` replaced by the parsed
payload.  `JSON.parse` is passed in as `parseJson` (`none` = throws). -/
def defaultPreset (parseJson : String → Option Js) (presetKind : Option Int)
    (presets : List PresetEntry) : Option (PresetEntry × Js) :=
  if presetKind.isNone || presets.isEmpty then none
  else
    let parsedPresets :=
      (presets.filterMap fun p => (parseJson p.data).map fun d => (p, d)).filter
        fun pd => jsGtZero (pd.2.opt "lastUpdated")
    if parsedPresets.isEmpty then none
    else (sortDesc (fun pd => luOf pd.2) parsedPresets).head?

/-- The cache-update function of `addPreset`:
`currentData ? [...currentData, newPreset] : [newPreset]`. -/
def addPresetCacheUpdate (currentData : Option (List Js)) (newPreset : Js) : List Js :=
  match currentData with
  | some l => l ++ [newPreset]
  | none => [newPreset]

/-- The cache-update function of `deletePreset`:
`currentPresets?.filter((preset) => preset.presetId !== presetId) || []`. -/
def deletePresetCacheUpdate (currentPresets : Option (List Js)) (presetId : Js) : List Js :=
  match currentPresets with
  | some l => l.filter fun p => !jsStrictEq (p.opt "presetId") presetId
  | none => []

/-- The options both mutations pass to the SWR `mutate`. -/
structure MutateOptions where
  revalidate : Bool
  populateCache : Bool

def presetMutateOptions : MutateOptions :=
  { revalidate := false, populateCache := true }

/-- The fields of the object `usePresets` returns (usePresets.ts, return
statement; `addPreset` and `deletePreset` are commented out there). -/
def usePresetsReturnFields : List String :=
  ["presets", "defaultPreset", "isLoading", "error", "getPresets", "presetsEnabled"]

/-- The fields PageBuilder destructures from `usePresets` (PageBuilder.tsx). -/
def pageBuilderPresetsUsage : List String :=
  ["presets", "defaultPreset", "isLoading", "addPreset", "deletePreset",
   "getPresets", "presetsEnabled"]

/-! ## Error message parsing (utils/helpers/errorMessageHelper.ts) -/

mutual

/-- Model of JavaScript string conversion `String(v)` for the values an error
can be: arrays join their elements with `","` (null/undefined elements become
`""`), plain objects give `"[object Object]"`. -/
def jsToString : Js → String
  | .undefined => "undefined"
  | .null => "null"
  | .bool b => if b then "true" else "false"
  | .num n => toString n
  | .str s => s
  | .arr l => jsArrToString l
  | .obj _ => "[object Object]"

def jsArrToString : List Js → String
  | [] => ""
  | [x] => jsElemToString x
  | x :: y :: rest => jsElemToString x ++ "," ++ jsArrToString (y :: rest)

def jsElemToString : Js → String
  | .undefined => ""
  | .null => ""
  | .bool b => if b then "true" else "false"
  | .num n => toString n
  | .str s => s
  | .arr l => jsArrToString l
  | .obj _ => "[object Object]"

end

/-- `error?.toString?.()`: the optional call short-circuits on `null` and
`undefined`, otherwise yields the string conversion. -/
def toStringPattern (error : Js) : Js :=
  match error with
  | .undefined => .undefined
  | .null => .undefined
  | v => .str (jsToString v)

/-- `typeof error === "string" ? error : null`. -/
def rawStringPattern (error : Js) : Js :=
  match error with
  | .str s => .str s
  | _ => .null

/-- The `patterns` array of `parseErrorMessage`, in source order. -/
def errorPatterns (error : Js) : List Js :=
  [((error.opt "response").opt "data").opt "message",
   ((error.opt "response").opt "data").opt "error",
   ((error.opt "response").opt "data").opt "detail",
   (error.opt "response").opt "statusText",
   error.opt "message",
   toStringPattern error,
   rawStringPattern error]

/-- The `patterns.find` predicate:
`msg && typeof msg === "string" && msg.trim().length > 0`. -/
def isValidMessage (v : Js) : Bool :=
  match v with
  | .str s => jsTruthy (.str s) && decide (0 < (jsTrim s).length)
  | _ => false

/-- `parseErrorMessage`: the first pattern that is a non-empty, non-whitespace
string, else the fallback (`foundMessage || fallbackMessage`). -/
def parseErrorMessage (error : Js) (fallbackMessage : String) : String :=
  match (errorPatterns error).find? isValidMessage with
  | some (.str s) => s
  | some _ => fallbackMessage
  | none => fallbackMessage

/-- Spec-side view of one pattern: `some` of the string when it is a string
with non-whitespace content, `none` otherwise. -/
def asValidString (v : Js) : Option String :=
  match v with
  | .str s => if 0 < (jsTrim s).length then some s else none
  | _ => none

/-- `find?` over the pattern list, kept as an `Option String`. -/
def firstValid (l : List Js) : Option String :=
  match l.find? isValidMessage with
  | some (.str s) => some s
  | _ => none

theorem jsTrim_empty : (jsTrim "").length = 0 := by decide

theorem isValidMessage_iff (v : Js) :
    isValidMessage v = true ↔ ∃ s, v = .str s ∧ 0 < (jsTrim s).length := by
  cases v with
  | str s =>
      simp only [isValidMessage, jsTruthy, jsFalsy, Bool.and_eq_true, Bool.not_eq_true',
        decide_eq_true_eq, Js.str.injEq]
      constructor
      · rintro ⟨_, hlen⟩
        exact ⟨s, rfl, hlen⟩
      · rintro ⟨t, ht, hlen⟩
        cases ht
        refine ⟨?_, hlen⟩
        simp only [beq_eq_false_iff_ne, ne_eq]
        intro he
        subst he
        simp [jsTrim_empty] at hlen
  | undefined => simp [isValidMessage]
  | null => simp [isValidMessage]
  | bool b => simp [isValidMessage]
  | num n => simp [isValidMessage]
  | arr l => simp [isValidMessage]
  | obj fields => simp [isValidMessage]

theorem asValidString_eq_none (v : Js) (h : ¬isValidMessage v = true) :
    asValidString v = none := by
  cases v with
  | str s =>
      simp only [asValidString, ite_eq_right_iff]
      intro hs
      exact absurd ((isValidMessage_iff _).mpr ⟨s, rfl, hs⟩) h
  | undefined => rfl
  | null => rfl
  | bool b => rfl
  | num n => rfl
  | arr l => rfl
  | obj fields => rfl

theorem firstValid_cons (v : Js) (rest : List Js) :
    firstValid (v :: rest) = (asValidString v).orElse fun _ => firstValid rest := by
  by_cases h : isValidMessage v = true
  · rcases (isValidMessage_iff v).mp h with ⟨s, rfl, hs⟩
    simp [firstValid, List.find?_cons_of_pos _ h, asValidString, hs, Option.orElse]
  · rw [asValidString_eq_none v h]
    simp [firstValid, List.find?_cons_of_neg _ h, Option.orElse]

/-! ## Claim theorems -/

/-- Whether a value is `null` or `undefined` (skipped by `??`). -/
def isNullish : Js → Bool
  | .undefined => true
  | .null => true
  | _ => false

/-- A response that matches none of the known envelope shapes: every access
tried by `extractDataFromResponse` is nullish. -/
def noKnownShape (v : Js) : Bool :=
  isNullish ((v.opt "response").opt "mainResult") &&
  isNullish (v.opt "response") &&
  isNullish (v.opt "mainResult") &&
  isNullish (v.opt "MainResult") &&
  isNullish ((v.opt "body").opt "mainResult") &&
  isNullish ((v.opt "body").opt "data") &&
  isNullish (v.opt "body") &&
  isNullish (v.opt "data") &&
  isNullish (v.opt "Data")

theorem jsNullish_of_isNullish {a : Js} (b : Js) (h : isNullish a = true) :
    jsNullish a b = b := by
  cases a <;> simp [isNullish] at h ⊢ <;> rfl

/-- C2: for every call to `submitFilters`, with any filter object and in any
hook state, the resulting query state has current page 1. -/
theorem submitFilters_resets_page (defaultStale : Option Nat)
    (newFilters : List (String × Js)) (nowMs : Nat) (st : QueryState) :
    (submitFilters defaultStale newFilters nowMs st).current = 1 := rfl

/-- C10: `submitFilters` changes only the submitted filters, the current page,
the stale-window key, the cache-suppression flag and the retrying flag; it
leaves pageSize, the sorter and the column state unchanged. -/
theorem submitFilters_frame (defaultStale : Option Nat)
    (newFilters : List (String × Js)) (nowMs : Nat) (st : QueryState) :
    (submitFilters defaultStale newFilters nowMs st).pageSize = st.pageSize ∧
    (submitFilters defaultStale newFilters nowMs st).sorter = st.sorter ∧
    (submitFilters defaultStale newFilters nowMs st).columns = st.columns ∧
    (submitFilters defaultStale newFilters nowMs st).submittedFilters = pruneFields newFilters ∧
    (submitFilters defaultStale newFilters nowMs st).current = 1 ∧
    (submitFilters defaultStale newFilters nowMs st).staleTime =
      getTimeWindowKey nowMs defaultStale "filters_" ∧
    (submitFilters defaultStale newFilters nowMs st).isCacheKeyUndefined = false ∧
    (submitFilters defaultStale newFilters nowMs st).isRetrying = false :=
  ⟨rfl, rfl, rfl, rfl, rfl, rfl, rfl, rfl⟩

/-- C5: `updateColumnVisibility` and `resetColumnVisibility` change only the
column state: every component of the SWR cache key tuple — and hence the SWR
key itself — is unchanged, so toggling a column never triggers a fetch. -/
theorem columnVisibility_frame (st : QueryState) (key : String) (hidden : Bool)
    (order? : Option Nat) (cacheKey : Js) (initialColumns : List Column) :
    swrKeyTuple cacheKey (updateColumnVisibility key hidden order? st) =
      swrKeyTuple cacheKey st ∧
    swrKey cacheKey (updateColumnVisibility key hidden order? st) = swrKey cacheKey st ∧
    (updateColumnVisibility key hidden order? st).current = st.current ∧
    (updateColumnVisibility key hidden order? st).pageSize = st.pageSize ∧
    (updateColumnVisibility key hidden order? st).submittedFilters = st.submittedFilters ∧
    (updateColumnVisibility key hidden order? st).sorter = st.sorter ∧
    (updateColumnVisibility key hidden order? st).staleTime = st.staleTime ∧
    (updateColumnVisibility key hidden order? st).isCacheKeyUndefined =
      st.isCacheKeyUndefined ∧
    swrKeyTuple cacheKey (resetColumnVisibility initialColumns st) =
      swrKeyTuple cacheKey st ∧
    swrKey cacheKey (resetColumnVisibility initialColumns st) = swrKey cacheKey st ∧
    (resetColumnVisibility initialColumns st).current = st.current ∧
    (resetColumnVisibility initialColumns st).pageSize = st.pageSize ∧
    (resetColumnVisibility initialColumns st).submittedFilters = st.submittedFilters ∧
    (resetColumnVisibility initialColumns st).sorter = st.sorter ∧
    (resetColumnVisibility initialColumns st).staleTime = st.staleTime ∧
    (resetColumnVisibility initialColumns st).isCacheKeyUndefined = st.isCacheKeyUndefined :=
  ⟨rfl, rfl, rfl, rfl, rfl, rfl, rfl, rfl, rfl, rfl, rfl, rfl, rfl, rfl, rfl, rfl⟩

/-- C4: `exportFn` fetches with page 1 / pageSize 0, the currently submitted
filters and current sorter — independent of the current page and pageSize —
and returns the raw result through the same normalisation as `dataSource`. -/
theorem exportFn_spec (fetchData : FetchDataParams → Js) (st : QueryState) :
    exportFn fetchData st =
      extractDataFromResponse (fetchData
        { filters := st.submittedFilters
          pagination := { page := 1, pageSize := 0 }
          sorter := sorterParamOf st.sorter }) ∧
    (exportParams st).pagination.page = 1 ∧
    (exportParams st).pagination.pageSize = 0 ∧
    (exportParams st).filters = st.submittedFilters ∧
    (exportParams st).sorter = sorterParamOf st.sorter ∧
    (∀ p ps : Nat, exportParams { st with current := p, pageSize := ps } = exportParams st) :=
  ⟨rfl, rfl, rfl, rfl, rfl, fun _ _ => rfl⟩

/-- C3: each of the known envelopes `{response:{mainResult:xs}}`,
`{mainResult:xs}`, `{data:xs}` yields the array `xs`; the first matching shape
wins; inputs matching no known shape (null and undefined included) yield `[]`. -/
theorem extract_normalization (xs ys zs : List Js) :
    extractDataFromResponse
      (Js.obj [("response", Js.obj [("mainResult", Js.arr xs)])]) = Js.arr xs ∧
    extractDataFromResponse (Js.obj [("mainResult", Js.arr xs)]) = Js.arr xs ∧
    extractDataFromResponse (Js.obj [("data", Js.arr xs)]) = Js.arr xs ∧
    extractDataFromResponse
      (Js.obj [("response", Js.obj [("mainResult", Js.arr xs)]),
        ("mainResult", Js.arr ys), ("data", Js.arr zs)]) = Js.arr xs ∧
    extractDataFromResponse
      (Js.obj [("mainResult", Js.arr ys), ("data", Js.arr zs)]) = Js.arr ys ∧
    extractDataFromResponse Js.null = Js.arr [] ∧
    extractDataFromResponse Js.undefined = Js.arr [] ∧
    (∀ v : Js, noKnownShape v = true → extractDataFromResponse v = Js.arr []) := by
  refine ⟨rfl, rfl, rfl, rfl, rfl, rfl, rfl, ?_⟩
  intro v hv
  simp only [noKnownShape, Bool.and_eq_true] at hv
  obtain ⟨⟨⟨⟨⟨⟨⟨⟨h1, h2⟩, h3⟩, h4⟩, h5⟩, h6⟩, h7⟩, h8⟩, h9⟩ := hv
  unfold extractDataFromResponse
  rw [jsNullish_of_isNullish _ h1, jsNullish_of_isNullish _ h2,
    jsNullish_of_isNullish _ h3, jsNullish_of_isNullish _ h4,
    jsNullish_of_isNullish _ h5, jsNullish_of_isNullish _ h6,
    jsNullish_of_isNullish _ h7, jsNullish_of_isNullish _ h8,
    jsNullish_of_isNullish _ h9]

/-- Witness for C3: a concrete object with no known envelope shape yields `[]`. -/
theorem extract_normalization_witness :
    noKnownShape (Js.obj [("foo", Js.num 1)]) = true ∧
    extractDataFromResponse (Js.obj [("foo", Js.num 1)]) = Js.arr [] :=
  ⟨rfl, (extract_normalization [] [] []).2.2.2.2.2.2.2 (Js.obj [("foo", Js.num 1)]) rfl⟩

/-- C9: the submitted filters are a pruned map in the initial state and after
every `submitFilters` call: no `null`, `undefined` or `""` value at any object
depth and no nested object left empty by pruning. -/
theorem submittedFilters_pruned :
    (∀ (initialColumns : List Column) (initialFilters : List (String × Js))
       (initialPage initialPageSize : Nat) (initialSorter : Js)
       (defaultStale : Option Nat) (nowMs : Nat),
       prunedFields (initState initialColumns initialFilters initialPage initialPageSize
         initialSorter defaultStale nowMs).submittedFilters = true) ∧
    (∀ (defaultStale : Option Nat) (newFilters : List (String × Js)) (nowMs : Nat)
       (st : QueryState),
       prunedFields (submitFilters defaultStale newFilters nowMs st).submittedFilters =
         true) :=
  ⟨fun _ initialFilters _ _ _ _ _ => prunedFields_pruneFields initialFilters,
   fun _ newFilters _ _ => prunedFields_pruneFields newFilters⟩

/-- A sample hook state used by concrete witnesses. -/
def sampleState : QueryState :=
  initState [] [] 1 10 (Js.obj []) none 0

/-- C1: while `retryCount < 2` a failed fetch schedules a retry after a fixed
3000 ms delay (so up to 2 automatic retries run); once `retryCount ≥ 2` no
retry is scheduled, every cache entry whose key is prefixed by the (truthy)
cacheKey is invalidated, and fetching is suppressed (the SWR key becomes
`undefined`); `submitFilters` clears the suppression, re-enabling fetching. -/
theorem retry_policy :
    (∀ (cacheKey : Js) (st : QueryState) (cache : SwrCache) (retryCount : Nat),
        retryCount < 2 →
        onErrorRetry cacheKey st cache retryCount =
          ({ st with isRetrying := true }, cache, some 3000)) ∧
    (∀ (ck : String) (st : QueryState) (cache : SwrCache) (retryCount : Nat),
        ck ≠ "" → 2 ≤ retryCount →
        (onErrorRetry (Js.str ck) st cache retryCount).2.2 = none ∧
        (onErrorRetry (Js.str ck) st cache retryCount).1.isCacheKeyUndefined = true ∧
        swrKey (Js.str ck) (onErrorRetry (Js.str ck) st cache retryCount).1 = none ∧
        (∀ k v, (k, v) ∈ (onErrorRetry (Js.str ck) st cache retryCount).2.1 →
            keyPrefixedBy ck k = true → v = Js.undefined)) ∧
    (∀ (defaultStale : Option Nat) (newFilters : List (String × Js)) (nowMs : Nat)
        (st : QueryState) (cacheKey : Js),
        (submitFilters defaultStale newFilters nowMs st).isCacheKeyUndefined = false ∧
        (swrKey cacheKey (submitFilters defaultStale newFilters nowMs st)).isSome =
          true) := by
  refine ⟨?_, ?_, ?_⟩
  · intro cacheKey st cache retryCount h
    simp [onErrorRetry, Nat.not_le.mpr h]
  · intro ck st cache retryCount hck h
    have hif : onErrorRetry (Js.str ck) st cache retryCount =
        ({ st with isCacheKeyUndefined := true, isRetrying := false },
          clearAllRelatedCache (Js.str ck) cache, none) := by
      simp [onErrorRetry, h]
    refine ⟨by rw [hif], by rw [hif], by rw [hif]; rfl, ?_⟩
    intro k v hmem hpfx
    rw [hif] at hmem
    rcases List.mem_map.mp hmem with ⟨e, he, hfe⟩
    by_cases hc : cacheKeyFilter (Js.str ck) e.1 = true
    · rw [if_pos hc] at hfe
      exact ((Prod.mk.injEq _ _ _ _).mp hfe).2.symm
    · rw [if_neg hc] at hfe
      subst hfe
      exact absurd (cacheKeyFilter_of_prefixed ck hck k hpfx) hc
  · intro defaultStale newFilters nowMs st cacheKey
    exact ⟨rfl, rfl⟩

/-- Witness for C1: concrete retry, give-up (with a prefixed key cleared) and
re-enabling instances. -/
theorem retry_policy_witness :
    onErrorRetry (Js.str "tbl") sampleState
        [(SwrCacheKey.str "tbl-x", Js.num 7)] 0 =
      ({ sampleState with isRetrying := true },
        [(SwrCacheKey.str "tbl-x", Js.num 7)], some 3000) ∧
    (onErrorRetry (Js.str "tbl") sampleState
        [(SwrCacheKey.str "tbl-x", Js.num 7)] 2).2.2 = none ∧
    (onErrorRetry (Js.str "tbl") sampleState
        [(SwrCacheKey.str "tbl-x", Js.num 7)] 2).1.isCacheKeyUndefined = true ∧
    swrKey (Js.str "tbl") (onErrorRetry (Js.str "tbl") sampleState
        [(SwrCacheKey.str "tbl-x", Js.num 7)] 2).1 = none ∧
    Js.undefined = Js.undefined ∧
    (submitFilters none [] 0 sampleState).isCacheKeyUndefined = false ∧
    (swrKey (Js.str "tbl") (submitFilters none [] 0 sampleState)).isSome = true := by
  have h2 := retry_policy.2.1 "tbl" sampleState
    [(SwrCacheKey.str "tbl-x", Js.num 7)] 2 (by decide) (by decide)
  have h3 := retry_policy.2.2 none [] 0 sampleState (Js.str "tbl")
  refine ⟨retry_policy.1 (Js.str "tbl") sampleState _ 0 (by decide),
    h2.1, h2.2.1, h2.2.2.1, ?_, h3.1, h3.2⟩
  have hmem : (SwrCacheKey.str "tbl-x", Js.undefined) ∈
      (onErrorRetry (Js.str "tbl") sampleState
        [(SwrCacheKey.str "tbl-x", Js.num 7)] 2).2.1 := by
    show (SwrCacheKey.str "tbl-x", Js.undefined) ∈ [(SwrCacheKey.str "tbl-x", Js.undefined)]
    exact List.mem_singleton.mpr rfl
  exact (h2.2.2.2 (SwrCacheKey.str "tbl-x") Js.undefined hmem rfl).symm ▸ rfl

theorem mem_of_head?_eq {α : Type} (l : List α) (a : α) (h : l.head? = some a) :
    a ∈ l := by
  cases l with
  | nil => simp at h
  | cons x t =>
      simp only [List.head?_cons, Option.some.injEq] at h
      subst h
      exact List.mem_cons_self x t

/-- C6: default-preset selection returns `none` without a preset kind, with no
entries, or when every entry is unparsable or has non-positive `lastUpdated`;
otherwise it returns a valid entry (with its parsed payload) whose
`lastUpdated` is maximal among all valid entries. -/
theorem defaultPreset_spec :
    (∀ (parseJson : String → Option Js) (presets : List PresetEntry),
        defaultPreset parseJson none presets = none) ∧
    (∀ (parseJson : String → Option Js) (pk : Option Int),
        defaultPreset parseJson pk [] = none) ∧
    (∀ (parseJson : String → Option Js) (pk : Option Int) (presets : List PresetEntry),
        (∀ p ∈ presets, ∀ d, parseJson p.data = some d →
            jsGtZero (d.opt "lastUpdated") = false) →
        defaultPreset parseJson pk presets = none) ∧
    (∀ (parseJson : String → Option Js) (pk : Option Int) (presets : List PresetEntry)
        (p : PresetEntry) (d : Js),
        defaultPreset parseJson pk presets = some (p, d) →
        p ∈ presets ∧ parseJson p.data = some d ∧
        jsGtZero (d.opt "lastUpdated") = true ∧
        ∀ q ∈ presets, ∀ e, parseJson q.data = some e →
            jsGtZero (e.opt "lastUpdated") = true → luOf e ≤ luOf d) := by
  refine ⟨?_, ?_, ?_, ?_⟩
  · intro parseJson presets
    simp [defaultPreset]
  · intro parseJson pk
    simp [defaultPreset]
  · intro parseJson pk presets hall
    unfold defaultPreset
    split
    · rfl
    · have hnil : ((presets.filterMap fun p => (parseJson p.data).map fun d => (p, d)).filter
          fun pd => jsGtZero (pd.2.opt "lastUpdated")) = [] := by
        apply List.filter_eq_nil_iff.mpr
        intro pd hpd
        rcases List.mem_filterMap.mp hpd with ⟨p, hp, hf⟩
        rcases Option.map_eq_some'.mp hf with ⟨d, hparse, hpd'⟩
        subst hpd'
        simp [hall p hp d hparse]
      simp [hnil]
  · intro parseJson pk presets p d hres
    unfold defaultPreset at hres
    split at hres
    · exact absurd hres (by simp)
    · set parsed := (presets.filterMap fun p => (parseJson p.data).map fun d => (p, d)).filter
        fun pd => jsGtZero (pd.2.opt "lastUpdated") with hparsed
      dsimp only at hres
      split at hres
      · exact absurd hres (by simp)
      · have hmem : (p, d) ∈ sortDesc (fun pd => luOf pd.2) parsed :=
          mem_of_head?_eq _ _ hres
        have hmem' : (p, d) ∈ parsed := (mem_sortDesc _ _ _).mp hmem
        have hfil := List.mem_filter.mp hmem'
        rcases List.mem_filterMap.mp hfil.1 with ⟨q, hq, hfq⟩
        rcases Option.map_eq_some'.mp hfq with ⟨e, hparse, hqe⟩
        have hpq : q = p := congrArg Prod.fst hqe
        have hde : e = d := congrArg Prod.snd hqe
        rw [hpq, hde] at hparse
        rw [hpq] at hq
        refine ⟨hq, hparse, hfil.2, ?_⟩
        intro r hr f hparse' hpos
        have hrf : (r, f) ∈ parsed := by
          rw [hparsed]
          exact List.mem_filter.mpr
            ⟨List.mem_filterMap.mpr ⟨r, hr, by rw [hparse']; rfl⟩, hpos⟩
        exact sortDesc_head_max (fun pd => luOf pd.2) parsed (p, d) hres (r, f) hrf

/-- Witness for C6: concrete absent-kind, empty, all-invalid and
maximum-selection instances. -/
theorem defaultPreset_witness :
    defaultPreset (fun _ => none) none [] = none ∧
    defaultPreset (fun _ => none) (some 1) [] = none ∧
    defaultPreset (fun _ => none) (some 1) [⟨Js.num 1, "a", "x"⟩] = none ∧
    (⟨Js.num 1, "a", "x"⟩ : PresetEntry) ∈ [(⟨Js.num 1, "a", "x"⟩ : PresetEntry)] := by
  refine ⟨defaultPreset_spec.1 (fun _ => none) [],
    defaultPreset_spec.2.1 (fun _ => none) (some 1), ?_, ?_⟩
  · refine defaultPreset_spec.2.2.1 (fun _ => none) (some 1) [⟨Js.num 1, "a", "x"⟩] ?_
    intro p hp d hd
    simp at hd
  · exact (defaultPreset_spec.2.2.2
      (fun _ => some (Js.obj [("lastUpdated", Js.num 5)])) (some 1)
      [⟨Js.num 1, "a", "x"⟩] ⟨Js.num 1, "a", "x"⟩
      (Js.obj [("lastUpdated", Js.num 5)]) rfl).1

/-- C7 (code defect): the mutations do apply optimistic local cache updates —
`addPreset` appends the new entry, `deletePreset` filters the deleted id out,
both with server revalidation disabled and cache population enabled — but the
hook's return object omits `addPreset` and `deletePreset` (they are commented
out), even though PageBuilder destructures both from it. -/
theorem presets_mutations_behavior :
    (∀ (l : List Js) (newPreset : Js),
        addPresetCacheUpdate (some l) newPreset = l ++ [newPreset]) ∧
    (∀ newPreset : Js, addPresetCacheUpdate none newPreset = [newPreset]) ∧
    (∀ (l : List Js) (pid p : Js),
        p ∈ deletePresetCacheUpdate (some l) pid ↔
          p ∈ l ∧ jsStrictEq (p.opt "presetId") pid = false) ∧
    (∀ pid : Js, deletePresetCacheUpdate none pid = []) ∧
    presetMutateOptions.revalidate = false ∧
    presetMutateOptions.populateCache = true ∧
    usePresetsReturnFields.contains "addPreset" = false ∧
    usePresetsReturnFields.contains "deletePreset" = false ∧
    pageBuilderPresetsUsage.contains "addPreset" = true ∧
    pageBuilderPresetsUsage.contains "deletePreset" = true := by
  refine ⟨fun _ _ => rfl, fun _ => rfl, ?_, fun _ => rfl, rfl, rfl,
    by decide, by decide, by decide, by decide⟩
  intro l pid p
  simp [deletePresetCacheUpdate, List.mem_filter]

theorem jsTrim_length_le (s : String) : (jsTrim s).length ≤ s.length := by
  have h1 : ((s.data.dropWhile Char.isWhitespace).reverse.dropWhile
      Char.isWhitespace).length ≤ (s.data.dropWhile Char.isWhitespace).reverse.length :=
    (List.dropWhile_suffix _).length_le
  have h2 : (s.data.dropWhile Char.isWhitespace).length ≤ s.data.length :=
    (List.dropWhile_suffix _).length_le
  have h3 : (jsTrim s).length =
      ((s.data.dropWhile Char.isWhitespace).reverse.dropWhile
        Char.isWhitespace).reverse.length := rfl
  have h4 : s.length = s.data.length := rfl
  rw [h3, h4, List.length_reverse]
  rw [List.length_reverse] at h1
  omega

theorem parseErrorMessage_eq_firstValid (error : Js) (fb : String) :
    parseErrorMessage error fb = (firstValid (errorPatterns error)).getD fb := by
  unfold parseErrorMessage firstValid
  cases h : (errorPatterns error).find? isValidMessage with
  | none => rfl
  | some v => cases v <;> rfl

/-- C8: `parseErrorMessage` returns the first non-empty, non-whitespace string
found by trying — in priority order — `response.data.message`,
`response.data.error`, `response.data.detail`, `response.statusText`, the
`message` field, the `toString()` result and the raw string itself, falling
back to the fallback message; with the default fallback the result is never
empty. -/
theorem parseErrorMessage_spec :
    (∀ (error : Js) (fb : String),
        parseErrorMessage error fb =
          ((asValidString (((error.opt "response").opt "data").opt "message")).orElse fun _ =>
           (asValidString (((error.opt "response").opt "data").opt "error")).orElse fun _ =>
           (asValidString (((error.opt "response").opt "data").opt "detail")).orElse fun _ =>
           (asValidString ((error.opt "response").opt "statusText")).orElse fun _ =>
           (asValidString (error.opt "message")).orElse fun _ =>
           (asValidString (toStringPattern error)).orElse fun _ =>
           asValidString (rawStringPattern error)).getD fb) ∧
    (∀ error : Js,
        0 < (parseErrorMessage error "Failed to fetch data").length) := by
  constructor
  · intro error fb
    rw [parseErrorMessage_eq_firstValid]
    simp only [errorPatterns, firstValid_cons,
      show firstValid [] = none from rfl, Option.orElse_none']
  · intro error
    unfold parseErrorMessage
    cases h : (errorPatterns error).find? isValidMessage with
    | none => decide
    | some v =>
        have hvalid := List.find?_some h
        rcases (isValidMessage_iff v).mp hvalid with ⟨s, rfl, hs⟩
        exact lt_of_lt_of_le hs (jsTrim_length_le s)

end PageBuilder
